import Mathlib

/-!
Verification of the trading aggregation core of this repository.

Two engines are embedded from the Python sources:

* `scripty/aggregate_contracts.py` — the cost/profit netting engine.
  Python `decimal.Decimal` values are modelled by `Dec`: either an exact
  rational (`Dec.fin`), a signed infinity, a quiet NaN or a signaling NaN
  (all of which Python's `Decimal` constructor accepts as literals).
  The default decimal context traps `InvalidOperation`, so an addition of
  opposite infinities, or any operation on a signaling NaN, raises in
  Python; such a raise is modelled by `Option`/`none`.  The 28-significant-
  digit context precision (silent rounding of very wide sums) is not
  modelled: finite decimal arithmetic is idealised as exact rational
  arithmetic, which is also what the spec asserts ("exact decimal
  representation").

* `scripty/process_excel.py` — the position reconstruction engine.
  A pandas numeric cell is modelled by `NCell` (missing/NaN, a numeric value
  coercible by `pd.to_numeric`, or non-null text that fails to coerce); the
  free-text side tag is `Option String` (`none` for a non-string cell).
  pandas float64 arithmetic is idealised as exact rational arithmetic.
-/

/- Re-allow kernel evaluation of rational arithmetic inside `decide`, used by
the concrete witnesses and counterexamples below. -/
attribute [local semireducible] Rat.add Rat.mul Rat.sub Rat.inv Rat.ofScientific

/-- Decidable equality for `Except`, so that concrete runs of the embedded
engines can be checked by `decide`. -/
instance instDecidableEqExcept {ε α : Type} [DecidableEq ε] [DecidableEq α] :
    DecidableEq (Except ε α)
  | .error x, .error y =>
    if h : x = y then .isTrue (by rw [h]) else .isFalse (fun hh => by cases hh; exact h rfl)
  | .error _, .ok _ => .isFalse (fun hh => by cases hh)
  | .ok _, .error _ => .isFalse (fun hh => by cases hh)
  | .ok x, .ok y =>
    if h : x = y then .isTrue (by rw [h]) else .isFalse (fun hh => by cases hh; exact h rfl)

/-! ## Shared string helpers -/

/-- ASCII whitespace stripped by Python's `str.strip()` (Python also strips
further Unicode whitespace, which is not modelled). -/
def pyWs (c : Char) : Bool :=
  c = ' ' || c = '\t' || c = '\n' || c = '\r' || c = '\x0b' || c = '\x0c'

/-- Python `str.strip()` on a list of characters. -/
def pyStrip (l : List Char) : List Char :=
  ((l.dropWhile pyWs).reverse.dropWhile pyWs).reverse

/-- Substring test: does `hay` contain `needle` as a contiguous subsequence?
Models Python's `needle in hay` on strings. -/
def listContains (hay needle : List Char) : Bool :=
  match hay with
  | [] => needle.isEmpty
  | c :: t => needle.isPrefixOf (c :: t) || listContains t needle

/-- `containsSub s pat` models Python `pat in s`. -/
def containsSub (s pat : String) : Bool :=
  listContains s.data pat.data

/-! ## The decimal value domain (netting engine) -/

/-- A Python `decimal.Decimal` value: a finite exact decimal (idealised as a
rational), a signed infinity, a quiet NaN, or a signaling NaN. -/
inductive Dec where
  | fin (q : ℚ)
  | inf (neg : Bool)
  | qnan
  | snan
deriving DecidableEq

/-- Decimal addition under Python's default context, in which
`InvalidOperation` is trapped: `none` means the addition raises
(`sNaN` operand, or infinities of opposite sign); a quiet NaN propagates
silently. -/
def Dec.add : Dec → Dec → Option Dec
  | .snan, _ => none
  | _, .snan => none
  | .qnan, _ => some .qnan
  | _, .qnan => some .qnan
  | .inf b, .inf b' => if b = b' then some (.inf b) else none
  | .inf b, .fin _ => some (.inf b)
  | .fin _, .inf b => some (.inf b)
  | .fin a, .fin b => some (.fin (a + b))

/-- The Python test `x == 0` on a `Decimal`: equality with a quiet NaN is
`False` without signaling, while a comparison with a signaling NaN raises
`InvalidOperation` (`none`). -/
def Dec.eqZero : Dec → Option Bool
  | .snan => none
  | .qnan => some false
  | .inf _ => some false
  | .fin q => some (decide (q = 0))

/-- Is this decimal a finite number? -/
def Dec.isFin : Dec → Bool
  | .fin _ => true
  | _ => false

/-- The rational carried by a finite decimal (junk `0` on specials). -/
def Dec.finVal : Dec → ℚ
  | .fin q => q
  | _ => 0

/-! ## The decimal string grammar (`Decimal(text)`) -/

/-- Consume an optional sign; `true` means negative. -/
def parseSign : List Char → Bool × List Char
  | '+' :: t => (false, t)
  | '-' :: t => (true, t)
  | l => (false, l)

/-- Split a leading run of ASCII digits. -/
def spanDigits (l : List Char) : List Char × List Char :=
  (l.takeWhile Char.isDigit, l.dropWhile Char.isDigit)

/-- Numeric value of a digit run. -/
def digitsToNat (ds : List Char) : ℕ :=
  ds.foldl (fun a c => 10 * a + (c.toNat - 48)) 0

/-- Parse the exponent part of a decimal numeric string; the whole remainder
must be consumed. -/
def parseExp (l : List Char) : Option ℤ :=
  match l with
  | [] => some 0
  | e :: t =>
    if e.toLower = 'e' then
      match parseSign t with
      | (s, t1) =>
        match spanDigits t1 with
        | (ds, t2) =>
          if ds.isEmpty || !t2.isEmpty then none
          else some (if s then -(digitsToNat ds : ℤ) else (digitsToNat ds : ℤ))
    else none

/-- Assemble a finite decimal from sign, coefficient digits, fractional
length and exponent: the value `±(digits) · 10^(e − fracLen)`, built with
`mkRat` so that it evaluates by kernel reduction. -/
def mkDecRat (neg : Bool) (ds : List Char) (fracLen : ℕ) (e : ℤ) : ℚ :=
  let k : ℤ := e - (fracLen : ℤ)
  let m : ℚ :=
    if 0 ≤ k then mkRat ((digitsToNat ds * 10 ^ k.toNat : ℕ) : ℤ) 1
    else mkRat ((digitsToNat ds : ℕ) : ℤ) (10 ^ (-k).toNat)
  if neg then -m else m

/-- Core of the `Decimal` numeric-string grammar (after whitespace and
underscore removal): optional sign, then `Infinity`/`Inf`, `NaN`/`sNaN`
(each with optional diagnostic digits, case-insensitive), or
`digits [. digits] [exponent]` / `. digits [exponent]`. -/
def decParseCore (cs : List Char) : Option Dec :=
  match parseSign cs with
  | (neg, r) =>
    let low := r.map Char.toLower
    if low = ("inf").data || low = ("infinity").data then some (.inf neg)
    else if (("nan").data).isPrefixOf low && (low.drop 3).all Char.isDigit then some .qnan
    else if (("snan").data).isPrefixOf low && (low.drop 4).all Char.isDigit then some .snan
    else
      match spanDigits r with
      | (ip, r1) =>
        match r1 with
        | '.' :: r2 =>
          match spanDigits r2 with
          | (fp, r3) =>
            if ip.isEmpty && fp.isEmpty then none
            else (parseExp r3).map (fun e => .fin (mkDecRat neg (ip ++ fp) fp.length e))
        | _ =>
          if ip.isEmpty then none
          else (parseExp r1).map (fun e => .fin (mkDecRat neg ip 0 e))

/-- The `Decimal(str)` constructor: leading/trailing whitespace and all
underscores are removed, then the numeric-string grammar is applied.
`none` models the constructor raising `InvalidOperation`. -/
def decParse (cs : List Char) : Option Dec :=
  decParseCore ((pyStrip cs).filter (fun c => c ≠ '_'))

/-! ## `parse_decimal` and `aggregate_contracts` -/

/-- A row of the netting engine's input, restricted to the three fields the
engine reads (`合约` = contract, `已实现盈亏` = realized P&L, `成交额` =
notional).  A `none` field models a key absent from the row dictionary
(`row.get` then returns `None`). -/
structure NRow where
  contract : Option String
  pnl : Option String
  amount : Option String
deriving DecidableEq

/-- `parse_decimal` from `aggregate_contracts.py`: `None` and blank strings
become `Decimal("0")`, commas (thousands separators) are removed, and an
unparseable string degrades to `Decimal("0")` via the caught
`InvalidOperation`. -/
def parse_decimal (v : Option String) : Dec :=
  match v with
  | none => .fin 0
  | some s =>
    let t := pyStrip s.data
    if t.isEmpty then .fin 0
    else
      match decParse (t.filter (fun c => c ≠ ',')) with
      | some d => d
      | none => .fin 0

/-- `row.get("合约", "").strip()`. -/
def getContract (r : NRow) : String :=
  String.mk (pyStrip ((r.contract.getD ("")).data))

/-- The per-contract accumulator of `aggregate_contracts.py`
(`class ContractAggregation`). -/
structure ContractAggregation where
  cost : Dec
  profit : Dec
deriving DecidableEq

/-- Update the value at key `c` in place, or append `(c, v)` at the end —
the observable effect of `OrderedDict.setdefault` followed by mutating the
returned bucket. -/
def setAgg {α : Type} (t : List (String × α)) (c : String) (v : α) : List (String × α) :=
  match t with
  | [] => [(c, v)]
  | (k, w) :: rest => if k = c then (k, v) :: rest else (k, w) :: setAgg rest c v

/-- The accumulator currently associated with contract `c` (a fresh
`ContractAggregation` with zero cost and profit if absent). -/
def lookupCA (totals : List (String × ContractAggregation)) (c : String) : ContractAggregation :=
  (totals.lookup c).getD ⟨.fin 0, .fin 0⟩

/-- One iteration of the loop in `aggregate_contracts`: skip rows with a
blank contract, parse the two numeric fields, then add the notional to
`cost` when the realized P&L equals zero and add the realized P&L to
`profit` otherwise.  `none` models a decimal `InvalidOperation` escaping
(the zero test on a signaling NaN, or a signaling addition). -/
def step (totals : List (String × ContractAggregation)) (r : NRow) :
    Option (List (String × ContractAggregation)) :=
  if getContract r = ("") then some totals
  else
    match (parse_decimal r.pnl).eqZero with
    | none => none
    | some true =>
      ((lookupCA totals (getContract r)).cost.add (parse_decimal r.amount)).map
        (fun nc => setAgg totals (getContract r) ⟨nc, (lookupCA totals (getContract r)).profit⟩)
    | some false =>
      ((lookupCA totals (getContract r)).profit.add (parse_decimal r.pnl)).map
        (fun np => setAgg totals (getContract r) ⟨(lookupCA totals (getContract r)).cost, np⟩)

/-- `aggregate_contracts`: fold the rows in order, first-seen contract order
preserved by `setAgg`'s append-at-end.  `none` models the call raising
`decimal.InvalidOperation`. -/
def aggregate_contracts (rows : List NRow) :
    Option (List (String × ContractAggregation)) :=
  rows.foldlM step []

/-! ## `load_rows` schema check -/

/-- What `load_rows` can raise before yielding any row. -/
inductive LoadError where
  /-- `TypeError: argument of type 'NoneType' is not iterable`, from
  evaluating `field not in reader.fieldnames` when `fieldnames` is `None`. -/
  | typeErr
  /-- The intended `ValueError` naming the sorted missing required fields. -/
  | schemaErr (missing : List String)
deriving DecidableEq

/-- The three required fields in Python `sorted()` (code point) order:
`合约` (U+5408…) < `已实现盈亏` (U+5DF2…) < `成交额` (U+6210…).  Filtering
this pre-sorted list equals `sorted(missing)` in the source. -/
def sortedRequired : List String :=
  [("合约"), ("已实现盈亏"), ("成交额")]

/-- `load_rows` from `aggregate_contracts.py`, abstracted over the CSV
reader: `fieldnames` is `DictReader.fieldnames` (`none` for a headerless /
empty file).  The source computes
`{field for field in (...) if field not in reader.fieldnames or reader.fieldnames is None}`;
the left operand of `or` is evaluated first, so a `none` header raises
`TypeError` before the `is None` test can fire. -/
def load_rows (fieldnames : Option (List String)) (rows : List NRow) :
    Except LoadError (List NRow) :=
  match fieldnames with
  | none => Except.error LoadError.typeErr
  | some fns =>
    match sortedRequired.filter (fun f => !(fns.contains f)) with
    | [] => Except.ok rows
    | missing => Except.error (LoadError.schemaErr missing)

/-! ## Pure all-finite image of the netting fold

When every parsed field of every row is a finite decimal, no decimal signal
can fire and the fold computes in exact rationals.  `stepP`/`aggP` is this
finite image, used to characterise successful runs of
`aggregate_contracts`. -/

/-- A per-contract accumulator whose components are known finite. -/
structure FinAgg where
  cost : ℚ
  profit : ℚ
deriving DecidableEq

/-- Both numeric fields of the row parse to finite decimals. -/
def FinRow (r : NRow) : Prop :=
  (parse_decimal r.pnl).isFin = true ∧ (parse_decimal r.amount).isFin = true

instance (r : NRow) : Decidable (FinRow r) := by
  unfold FinRow; infer_instance

/-- The finite image of `step`. -/
def stepP (totals : List (String × FinAgg)) (r : NRow) : List (String × FinAgg) :=
  if getContract r = ("") then totals
  else
    if (parse_decimal r.pnl).finVal = 0 then
      setAgg totals (getContract r)
        ⟨((totals.lookup (getContract r)).getD ⟨0, 0⟩).cost + (parse_decimal r.amount).finVal,
          ((totals.lookup (getContract r)).getD ⟨0, 0⟩).profit⟩
    else
      setAgg totals (getContract r)
        ⟨((totals.lookup (getContract r)).getD ⟨0, 0⟩).cost,
          ((totals.lookup (getContract r)).getD ⟨0, 0⟩).profit + (parse_decimal r.pnl).finVal⟩

/-- The finite image of `aggregate_contracts`. -/
def aggP (rows : List NRow) : List (String × FinAgg) :=
  rows.foldl stepP []

/-- Lift a finite accumulator table to the decimal-valued one. -/
def toCA (t : List (String × FinAgg)) : List (String × ContractAggregation) :=
  t.map (fun kv => (kv.1, ⟨Dec.fin kv.2.cost, Dec.fin kv.2.profit⟩))

/-- The rows whose (trimmed) contract identifier is `c`. -/
def rowsFor (rows : List NRow) (c : String) : List NRow :=
  rows.filter (fun r => getContract r == c)

/-- What a row adds to its contract's `cost` (zero on the profit branch). -/
def costContrib (r : NRow) : ℚ :=
  if (parse_decimal r.pnl).finVal = 0 then (parse_decimal r.amount).finVal else 0

/-- What a row adds to its contract's `profit` (zero on the cost branch). -/
def profitContrib (r : NRow) : ℚ :=
  if (parse_decimal r.pnl).finVal = 0 then 0 else (parse_decimal r.pnl).finVal

/-- Total cost accumulated for contract `c` over `rows` (finite image). -/
def csum (rows : List NRow) (c : String) : ℚ :=
  ((rowsFor rows c).map costContrib).sum

/-- Total profit accumulated for contract `c` over `rows` (finite image). -/
def psum (rows : List NRow) (c : String) : ℚ :=
  ((rowsFor rows c).map profitContrib).sum

/-! ## Position reconstruction engine (`process_excel.py`) -/

/-- A numeric cell as seen through pandas: missing (`NaN`), a value that
`pd.to_numeric` coerces to the number `q`, or non-null text that
`pd.to_numeric(errors='coerce')` turns into `NaN`. -/
inductive NCell where
  | nan
  | num (q : ℚ)
  | bad
deriving DecidableEq

/-- `pd.to_numeric(cell, errors='coerce')`, with the coerced `NaN` read as
`none`. -/
def NCell.toNum : NCell → Option ℚ
  | .num q => some q
  | _ => none

/-- `pd.isna(cell)` — only a genuinely missing cell is `NaN`;
non-null unparseable text is not. -/
def NCell.isNA : NCell → Bool
  | .nan => true
  | _ => false

/-- One execution row of a single contract, restricted to the columns the
reconstruction engine reads: `委托时间(UTC)` (order time, guaranteed
non-null by the upstream `dropna`), `买卖` (side text; `none` models a
non-string cell), `成交量` (quantity), `成交均价 ` (average price — the
sheet's column name carries a trailing space), `成交额` (notional). -/
structure XRow where
  time : Int
  side : Option String
  qty : NCell
  price : NCell
  amount : NCell
deriving DecidableEq

/-- `sort_values('委托时间(UTC)')`, ascending.  pandas' default quicksort
leaves the order of equal keys unspecified; the embedding fixes the stable
order. -/
def sortByTime (rows : List XRow) : List XRow :=
  List.insertionSort (fun a b => a.time ≤ b.time) rows

/-- The filter `pd.to_numeric(df['成交额'], errors='coerce') > 0`
(`NaN > 0` is false). -/
def posCond (r : XRow) : Bool :=
  match r.amount.toNum with
  | some q => decide (0 < q)
  | none => false

/-- The contract's rows after sorting by time and dropping rows without a
strictly positive numeric notional. -/
def posFilter (rows : List XRow) : List XRow :=
  (sortByTime rows).filter posCond

/-- `df['买卖'].str.contains('p1|p2', na=False)` for literal patterns:
a non-string cell matches nothing. -/
def sideHas (side : Option String) (pats : List String) : Bool :=
  match side with
  | none => false
  | some s => pats.any (fun p => containsSub s p)

/-- `'买' in first_order or '开多' in first_order` — the long test on the
first surviving row's side text. -/
def buyMarker (s : String) : Bool :=
  containsSub s ("买") || containsSub s ("开多")

/-- Side markers that put a row in the opening leg for the direction. -/
def openPats (isLong : Bool) : List String :=
  if isLong then [("买"), ("开多")] else [("卖"), ("开空")]

/-- Side markers that put a row in the closing leg for the direction. -/
def closePats (isLong : Bool) : List String :=
  if isLong then [("卖"), ("平")] else [("买"), ("平")]

/-- `open_orders`: the surviving rows whose side text matches an opening
marker. -/
def openLeg (isLong : Bool) (sdf : List XRow) : List XRow :=
  sdf.filter (fun r => sideHas r.side (openPats isLong))

/-- `close_orders`: the surviving rows whose side text matches a closing
marker. -/
def closeLeg (isLong : Bool) (sdf : List XRow) : List XRow :=
  sdf.filter (fun r => sideHas r.side (closePats isLong))

/-- `leg.dropna(subset=['成交均价 ', '成交量'])`: keep rows whose price and
quantity cells are non-null (unparseable text survives this). -/
def legValid (leg : List XRow) : List XRow :=
  leg.filter (fun r => !r.price.isNA && !r.qty.isNA)

/-- One term of `(to_numeric(price) * to_numeric(qty))`: the elementwise
product is `NaN` (dropped by the skipna sum, i.e. `0`) unless both coerce. -/
def prodPQ (r : XRow) : ℚ :=
  match r.price.toNum, r.qty.toNum with
  | some p, some q => p * q
  | _, _ => 0

/-- `to_numeric(leg_valid['成交量']).sum()` — a skipna sum, so an
uncoercible quantity contributes nothing. -/
def legTotQty (leg : List XRow) : ℚ :=
  ((legValid leg).map (fun r => r.qty.toNum.getD 0)).sum

/-- The leg's volume-weighted average price exactly as computed in the
source (lines 69–76 / 83–90): zero unless the `dropna`-valid subset is
non-empty and its summed coercible quantity is positive. -/
def legAvgPrice (leg : List XRow) : ℚ :=
  if (legValid leg).length > 0 then
    if legTotQty leg > 0 then ((legValid leg).map prodPQ).sum / legTotQty leg else 0
  else 0

/-- `to_numeric(leg_valid['成交额']).sum()` guarded by the same
non-emptiness test as in the source. -/
def legTotalAmount (leg : List XRow) : ℚ :=
  if (legValid leg).length > 0 then
    ((legValid leg).map (fun r => r.amount.toNum.getD 0)).sum
  else 0

/-- `leg['委托时间(UTC)'].min()` (`none` on an empty leg). -/
def timesMin (l : List XRow) : Option Int :=
  match l with
  | [] => none
  | r :: t => some (t.foldl (fun m x => min m x.time) r.time)

/-- `leg['委托时间(UTC)'].max()` (`none` on an empty leg). -/
def timesMax (l : List XRow) : Option Int :=
  match l with
  | [] => none
  | r :: t => some (t.foldl (fun m x => max m x.time) r.time)

/-- Round `q · 100` to an integer, ties to even — the rounding of
`f"{q:.2f}"` (Python formats the float with banker's rounding; the binary
float's deviation from the exact rational is not modelled). -/
def round2 (q : ℚ) : ℤ :=
  if q * 100 - (⌊q * 100⌋ : ℚ) < mkRat 1 2 then ⌊q * 100⌋
  else if mkRat 1 2 < q * 100 - (⌊q * 100⌋ : ℚ) then ⌊q * 100⌋ + 1
  else if ⌊q * 100⌋ % 2 = 0 then ⌊q * 100⌋ else ⌊q * 100⌋ + 1

/-- Left-pad the fractional part to two digits. -/
def twoDigits (n : ℕ) : String :=
  (if n < 10 then ("0") else ("")) ++ toString n

/-- `f"{q:.2f}%"` — the profit-rate rendering with two fractional digits
(a negative value rounding to zero keeps its sign, as Python prints
`-0.00`). -/
def formatPct (q : ℚ) : String :=
  (if q < 0 then ("-") else (""))
    ++ toString ((round2 q).natAbs / 100) ++ (".")
    ++ twoDigits ((round2 q).natAbs % 100) ++ ("%")

/-- The per-contract record appended to `trades` (lines 100–111): `开始`,
`结束`, `多/空`, `均价`, `总额`, `平仓均价`, `平仓总额`, `收益率`,
`收益总额`.  The contract symbol itself is the grouping key and is left
implicit. -/
structure TradeSummary where
  startTime : Option Int
  endTime : Option Int
  direction : String
  openAvgPrice : ℚ
  openTotal : ℚ
  closeAvgPrice : ℚ
  closeTotal : ℚ
  rateStr : String
  profitAmount : ℚ
deriving DecidableEq

/-- Build the summary for a contract whose surviving rows are `sdf`, with
inferred direction `isLong`.  The source guards the leg statistics by
`len(open_orders) > 0`; that outer guard is subsumed here because
`legAvgPrice`/`legTotalAmount` of an empty leg are the same zeros the
source initialises, while `timesMin`/`timesMax` return `none` exactly when
the leg is empty (matching `start_time = None` / `end_time = start_time`). -/
def mkSummary (isLong : Bool) (sdf : List XRow) : TradeSummary :=
  let oO := openLeg isLong sdf
  let cO := closeLeg isLong sdf
  let openTotal := legTotalAmount oO
  let closeTotal := legTotalAmount cO
  let profit := if isLong then closeTotal - openTotal else openTotal - closeTotal
  { startTime := timesMin oO
    endTime := match timesMax cO with
      | some t => some t
      | none => timesMin oO
    direction := if isLong then ("多") else ("空")
    openAvgPrice := legAvgPrice oO
    openTotal := openTotal
    closeAvgPrice := legAvgPrice cO
    closeTotal := closeTotal
    rateStr := formatPct (if openTotal > 0 then profit / openTotal * 100 else 0)
    profitAmount := profit }

/-- The pandas exception escaping the per-contract body. -/
inductive PdError where
  /-- `TypeError: argument of type 'float' is not iterable`, raised by
  `'买' in first_order` when the first surviving row's side cell is not a
  string. -/
  | typeErr
deriving DecidableEq

/-- The body of the `for symbol in ...` loop of `process_trading_data`
applied to a contract's sorted-and-filtered rows: no summary when nothing
survives the notional filter; a `TypeError` when the direction test hits a
non-string side; otherwise one summary. -/
def processSorted (sdf : List XRow) : Except PdError (Option TradeSummary) :=
  match sdf with
  | [] => Except.ok none
  | first :: rest =>
    match first.side with
    | none => Except.error PdError.typeErr
    | some s0 => Except.ok (some (mkSummary (buyMarker s0) (first :: rest)))

/-- The per-contract slice of `process_trading_data` (lines 41–111): sort
one contract's rows by order time, drop non-positive notionals, infer the
direction from the first survivor, partition into legs and reduce to a
`TradeSummary`. -/
def processContract (rows : List XRow) : Except PdError (Option TradeSummary) :=
  processSorted (posFilter rows)

/-- Modelled from the claim's words (C2): the volume-weighted average price
`Σ(price·quantity)/Σ(quantity)` over exactly the leg rows that have both a
parseable average price and a parseable quantity, and zero when that
restricted `Σ(quantity)` is zero. -/
def claimWavg (leg : List XRow) : ℚ :=
  let rs := leg.filter (fun r => r.price.toNum.isSome && r.qty.toNum.isSome)
  let den := (rs.map (fun r => r.qty.toNum.getD 0)).sum
  if den = 0 then 0
  else (rs.map (fun r => (r.price.toNum.getD 0) * (r.qty.toNum.getD 0))).sum / den

/-- The amended weighted-average formula (C2 corrected): the numerator
ranges over rows with both fields parseable, but the denominator sums the
parseable quantities of every row whose price and quantity cells are merely
non-null — a row with an unparseable (non-null) price still contributes its
quantity to the denominator; the result is zero when the denominator is not
positive. -/
def amendedWavg (leg : List XRow) : ℚ :=
  let kept := leg.filter (fun r => !r.price.isNA && !r.qty.isNA)
  let den := (kept.map (fun r => r.qty.toNum.getD 0)).sum
  let num := ((kept.filter (fun r => r.price.toNum.isSome && r.qty.toNum.isSome)).map
    (fun r => (r.price.toNum.getD 0) * (r.qty.toNum.getD 0))).sum
  if 0 < den then num / den else 0

/-! ## Concrete inputs used by witnesses and counterexamples -/

/-- A retained netting row whose realized P&L parses to `+Infinity`. -/
def c1rowInf : NRow := ⟨some ("A"), some ("Infinity"), none⟩

/-- A retained netting row whose realized P&L parses to `-Infinity`. -/
def c1rowNegInf : NRow := ⟨some ("A"), some ("-Infinity"), none⟩

/-- A netting row with a negative realized P&L. -/
def c9rowNeg : NRow := ⟨some ("A"), some ("-5"), none⟩

/-- Netting rows for the permutation counterexample: a quiet NaN first
absorbs the infinities; the opposite order signals. -/
def c5rowN : NRow := ⟨some ("A"), some ("NaN"), none⟩

/-- Realized P&L `Infinity` for the permutation counterexample. -/
def c5rowI : NRow := ⟨some ("A"), some ("Infinity"), none⟩

/-- Realized P&L `-Infinity` for the permutation counterexample. -/
def c5rowJ : NRow := ⟨some ("A"), some ("-Infinity"), none⟩

/-- A row with no realized-P&L key and an `Infinity` notional. -/
def c10rowInf : NRow := ⟨some ("B"), none, some ("Infinity")⟩

/-- A row with no realized-P&L key and a `-Infinity` notional. -/
def c10rowNegInf : NRow := ⟨some ("B"), none, some ("-Infinity")⟩

/-- Reconstruction rows for the weighted-average counterexample: the first
row has an unparseable (non-null) price and quantity 2, the second has
price 10 and quantity 1. -/
def c2rows : List XRow :=
  [⟨1, some ("买"), NCell.num 2, NCell.bad, NCell.num 20⟩,
   ⟨2, some ("买"), NCell.num 1, NCell.num 10, NCell.num 10⟩]

/-- A surviving row whose side text `买平` matches both the open marker
`买` and the close marker `平` of a long contract. -/
def c4rowBoth : XRow := ⟨2, some ("买平"), NCell.num 1, NCell.num 11, NCell.num 11⟩

/-- A long contract containing `c4rowBoth`. -/
def c4rows : List XRow :=
  [⟨1, some ("买"), NCell.num 1, NCell.num 10, NCell.num 10⟩, c4rowBoth]

/-- A surviving row whose side cell is not a string (`NaN`). -/
def c8rowNanSide : XRow := ⟨1, none, NCell.num 1, NCell.num 1, NCell.num 5⟩

/-- The spec's end-to-end reconstruction example: buy 1 @ 100 then
sell 1 @ 110. -/
def ethRows : List XRow :=
  [⟨1, some ("买"), NCell.num 1, NCell.num 100, NCell.num 100⟩,
   ⟨2, some ("卖"), NCell.num 1, NCell.num 110, NCell.num 110⟩]

/-- The summary the reconstruction engine produces for `ethRows`. -/
def ethSummary : TradeSummary :=
  ⟨some 1, some 2, ("多"), 100, 100, 110, 110, ("10.00%"), 10⟩

/-! ## Helper lemmas: `setAgg` and lookups -/

theorem lookup_setAgg_self {α : Type} (t : List (String × α)) (c : String) (v : α) :
    (setAgg t c v).lookup c = some v := by
  induction t with
  | nil => simp [setAgg, List.lookup]
  | cons kv rest ih =>
    obtain ⟨k, w⟩ := kv
    by_cases h : k = c
    · subst h; simp [setAgg, List.lookup]
    · simp [setAgg, h, List.lookup, beq_eq_false_iff_ne.mpr (Ne.symm h), ih]

theorem lookup_setAgg_ne {α : Type} (t : List (String × α)) (c c' : String) (v : α)
    (h : ¬ c' = c) : (setAgg t c v).lookup c' = t.lookup c' := by
  induction t with
  | nil => simp [setAgg, List.lookup, beq_eq_false_iff_ne.mpr h]
  | cons kv rest ih =>
    obtain ⟨k, w⟩ := kv
    by_cases hk : k = c
    · subst hk; simp [setAgg, List.lookup, beq_eq_false_iff_ne.mpr h]
    · simp [setAgg, hk, List.lookup, ih]

/-! ## Claim C6 -/

/-- Claim C6 (confirmed): tolerant numeric parsing in the netting engine.
For every input — `None`, a blank string, or any text on which the decimal
grammar fails (after strip and comma removal) — `parse_decimal` returns
exactly `Decimal("0")` instead of raising; strings with thousands
separators parse normally (see the witness).  Totality (never raising) is
the type of the embedding: `parse_decimal` is a total function into `Dec`
because the only decimal signal in reach, the constructor's
`InvalidOperation`, is caught by the source and mapped to zero. -/
theorem c6_parse_decimal_tolerant :
    parse_decimal none = Dec.fin 0 ∧
    (∀ s : String, (pyStrip s.data).isEmpty = true → parse_decimal (some s) = Dec.fin 0) ∧
    (∀ s : String,
      decParse ((pyStrip s.data).filter (fun c => c ≠ ',')) = none →
      parse_decimal (some s) = Dec.fin 0) := by
  refine ⟨rfl, ?_, ?_⟩
  · intro s h
    simp [parse_decimal, h]
  · intro s h
    by_cases he : (pyStrip s.data).isEmpty
    · simp [parse_decimal, he]
    · simp only [ne_eq, decide_not] at h
      simp [parse_decimal, he, h]

/-- Witness for C6 at concrete inputs: whitespace-only and unparseable
text both normalise to zero. -/
theorem c6_witness :
    parse_decimal (some ("   ")) = Dec.fin 0 ∧
    parse_decimal (some ("12.3.4x")) = Dec.fin 0 ∧
    parse_decimal (some ("1,234.50")) = Dec.fin (mkRat 12345 10) :=
  ⟨c6_parse_decimal_tolerant.2.1 ("   ") (by decide),
   c6_parse_decimal_tolerant.2.2 ("12.3.4x") (by decide),
   by decide⟩

/-! ## Claim C7 -/

/-- Claim C7 (code bug): the schema check is meant to fail fast with a
descriptive error naming the missing fields, and does so whenever the CSV
has a header row; but on a headerless/empty file `DictReader.fieldnames`
is `None` and the source evaluates `field not in reader.fieldnames`
*before* its dead `or reader.fieldnames is None` guard, raising a bare
`TypeError` instead of the promised descriptive `ValueError` — even though
such an input lacks all three required fields.  The last two conjuncts
show the intended behaviour on inputs that do have a header: the
descriptive error names the sorted missing fields before any row is
delivered, and a complete header delivers every row. -/
theorem c7_headerless :
    load_rows none [] = Except.error LoadError.typeErr ∧
    load_rows none [(⟨some ("X"), some ("1"), some ("2")⟩ : NRow)]
      = Except.error LoadError.typeErr ∧
    load_rows (some [("合约")]) []
      = Except.error (LoadError.schemaErr [("已实现盈亏"), ("成交额")]) ∧
    load_rows (some [("合约"), ("已实现盈亏"), ("成交额")])
        [(⟨some ("X"), some ("1"), some ("2")⟩ : NRow)]
      = Except.ok [(⟨some ("X"), some ("1"), some ("2")⟩ : NRow)] := by
  decide

/-! ## Claim C1 -/

/-- Claim C1 (counterexample): the second row is retained (its contract is
`A`) and its parsed realized P&L compares non-zero, so the claim requires
its value to be added to `profit`; instead, adding `-Infinity` to the
`+Infinity` accumulated by the first row signals `InvalidOperation` under
the default decimal context and the whole batch aborts — the row
contributes to neither accumulator and there is no output at all. -/
theorem c1_counterexample :
    getContract c1rowNegInf = ("A") ∧
    (parse_decimal c1rowNegInf.pnl).eqZero = some false ∧
    aggregate_contracts [c1rowInf, c1rowNegInf] = none := by
  decide

/-- Claim C1 (amended): restricted to a retained row whose parsed realized
P&L and notional are finite decimals and whose contract currently holds
finite accumulators, the zero test on the realized P&L is the sole
discriminant: a zero P&L adds the notional to that contract's cost and
leaves profit unchanged, a non-zero P&L adds the P&L to profit and leaves
cost unchanged, and no other contract's accumulators move.  (Rows whose
parsed values are infinities or signaling NaNs can instead abort the batch
— see the counterexample.) -/
theorem c1_amended (totals : List (String × ContractAggregation)) (r : NRow) (p a cc pp : ℚ)
    (hr : ¬ getContract r = (""))
    (hp : parse_decimal r.pnl = Dec.fin p)
    (ha : parse_decimal r.amount = Dec.fin a)
    (hb : lookupCA totals (getContract r) = ⟨Dec.fin cc, Dec.fin pp⟩) :
    (p = 0 →
      (step totals r).map (fun t' => lookupCA t' (getContract r))
        = some ⟨Dec.fin (cc + a), Dec.fin pp⟩) ∧
    (¬ p = 0 →
      (step totals r).map (fun t' => lookupCA t' (getContract r))
        = some ⟨Dec.fin cc, Dec.fin (pp + p)⟩) ∧
    (∀ c', ¬ c' = getContract r →
      (step totals r).map (fun t' => t'.lookup c') = some (totals.lookup c')) := by
  refine ⟨?_, ?_, ?_⟩
  · intro hp0
    have hz : (parse_decimal r.pnl).eqZero = some true := by
      rw [hp]; simp [Dec.eqZero, hp0]
    have hstep : step totals r
        = ((lookupCA totals (getContract r)).cost.add (parse_decimal r.amount)).map
            (fun nc => setAgg totals (getContract r)
              ⟨nc, (lookupCA totals (getContract r)).profit⟩) := by
      simp [step, hr, hz]
    rw [hstep, hb, ha]
    simp [Dec.add, lookupCA, lookup_setAgg_self]
  · intro hp0
    have hz : (parse_decimal r.pnl).eqZero = some false := by
      rw [hp]; simp [Dec.eqZero, hp0]
    have hstep : step totals r
        = ((lookupCA totals (getContract r)).profit.add (parse_decimal r.pnl)).map
            (fun np => setAgg totals (getContract r)
              ⟨(lookupCA totals (getContract r)).cost, np⟩) := by
      simp [step, hr, hz]
    rw [hstep, hb, hp]
    simp [Dec.add, lookupCA, lookup_setAgg_self]
  · intro c' hc'
    by_cases hp0 : p = 0
    · have hz : (parse_decimal r.pnl).eqZero = some true := by
        rw [hp]; simp [Dec.eqZero, hp0]
      have hstep : step totals r
          = ((lookupCA totals (getContract r)).cost.add (parse_decimal r.amount)).map
              (fun nc => setAgg totals (getContract r)
                ⟨nc, (lookupCA totals (getContract r)).profit⟩) := by
        simp [step, hr, hz]
      rw [hstep, hb, ha]
      simp [Dec.add, lookup_setAgg_ne _ _ _ _ hc']
    · have hz : (parse_decimal r.pnl).eqZero = some false := by
        rw [hp]; simp [Dec.eqZero, hp0]
      have hstep : step totals r
          = ((lookupCA totals (getContract r)).profit.add (parse_decimal r.pnl)).map
              (fun np => setAgg totals (getContract r)
                ⟨(lookupCA totals (getContract r)).cost, np⟩) := by
        simp [step, hr, hz]
      rw [hstep, hb, hp]
      simp [Dec.add, lookup_setAgg_ne _ _ _ _ hc']

/-- Witness for C1 at a concrete row: contract `A`, realized P&L `0`,
notional `7` — the cost accumulator gains exactly `7`, profit stays `0`. -/
theorem c1_witness :
    (step ([]) (⟨some ("A"), some ("0"), some ("7")⟩ : NRow)).map
        (fun t' => lookupCA t' (getContract (⟨some ("A"), some ("0"), some ("7")⟩ : NRow)))
      = some ⟨Dec.fin ((0 : ℚ) + 7), Dec.fin 0⟩ :=
  (c1_amended ([]) (⟨some ("A"), some ("0"), some ("7")⟩ : NRow) 0 7 0 0
    (by decide) (by decide) (by decide) (by decide)).1 rfl

/-! ## Claim C9 -/

/-- Claim C9 (counterexample): a single retained row with realized P&L
`-5` drives the contract's profit accumulator from its initial `0` down to
`-5 < 0` — the accumulators are not monotone, because the "increments" can
be negative. -/
theorem c9_counterexample :
    aggregate_contracts [c9rowNeg] = some [(("A"), ⟨Dec.fin 0, Dec.fin (-5)⟩)] ∧
    (-5 : ℚ) < 0 := by
  decide

/-- Claim C9 (amended): per contract, cost and profit start at exact
decimal zero, and each retained row only ever *adds* its parsed
contribution to exactly one of them; when the row's parsed notional and
realized P&L are non-negative (finite) decimals, processing the row never
decreases either accumulator of any contract.  A row with a negative
parsed value decreases the corresponding accumulator (see the
counterexample). -/
theorem c9_amended :
    (∀ c : String, lookupCA ([]) c = ⟨Dec.fin 0, Dec.fin 0⟩) ∧
    (∀ (totals : List (String × ContractAggregation)) (r : NRow) (c : String)
        (p a cc pp cc' pp' : ℚ) (totals' : List (String × ContractAggregation)),
      parse_decimal r.pnl = Dec.fin p → 0 ≤ p →
      parse_decimal r.amount = Dec.fin a → 0 ≤ a →
      lookupCA totals c = ⟨Dec.fin cc, Dec.fin pp⟩ →
      step totals r = some totals' →
      lookupCA totals' c = ⟨Dec.fin cc', Dec.fin pp'⟩ →
      cc ≤ cc' ∧ pp ≤ pp') := by
  constructor
  · intro c; rfl
  · intro totals r c p a cc pp cc' pp' totals' hp hpn ha han hb hstep hb'
    by_cases hr : getContract r = ("")
    · have hsame : totals' = totals := by
        have : step totals r = some totals := by simp [step, hr]
        rw [this] at hstep
        exact (Option.some.inj hstep).symm
      subst hsame
      rw [hb] at hb'
      have h1 : cc = cc' := Dec.fin.inj (congrArg ContractAggregation.cost hb')
      have h2 : pp = pp' := Dec.fin.inj (congrArg ContractAggregation.profit hb')
      exact ⟨le_of_eq h1, le_of_eq h2⟩
    · by_cases hp0 : p = 0
      · have hz : (parse_decimal r.pnl).eqZero = some true := by
          rw [hp]; simp [Dec.eqZero, hp0]
        have hs : step totals r
            = ((lookupCA totals (getContract r)).cost.add (parse_decimal r.amount)).map
                (fun nc => setAgg totals (getContract r)
                  ⟨nc, (lookupCA totals (getContract r)).profit⟩) := by
          simp [step, hr, hz]
        rw [hs] at hstep
        by_cases hc : c = getContract r
        · subst hc
          rw [hb, ha] at hstep
          simp only [Dec.add, Option.map_some'] at hstep
          have htot : totals' = setAgg totals (getContract r) ⟨Dec.fin (cc + a), Dec.fin pp⟩ :=
            (Option.some.inj hstep).symm
          subst htot
          rw [lookupCA, lookup_setAgg_self] at hb'
          simp only [Option.getD_some] at hb'
          have h1 : cc + a = cc' := Dec.fin.inj (congrArg ContractAggregation.cost hb')
          have h2 : pp = pp' := Dec.fin.inj (congrArg ContractAggregation.profit hb')
          exact ⟨h1 ▸ le_add_of_nonneg_right han, le_of_eq h2⟩
        · cases hadd : (lookupCA totals (getContract r)).cost.add (parse_decimal r.amount) with
          | none => rw [hadd] at hstep; cases hstep
          | some nc =>
            rw [hadd] at hstep
            simp only [Option.map_some'] at hstep
            have htot : totals' = setAgg totals (getContract r)
                ⟨nc, (lookupCA totals (getContract r)).profit⟩ := (Option.some.inj hstep).symm
            subst htot
            rw [lookupCA, lookup_setAgg_ne _ _ _ _ hc] at hb'
            rw [lookupCA] at hb
            rw [hb] at hb'
            have h1 : cc = cc' := Dec.fin.inj (congrArg ContractAggregation.cost hb')
            have h2 : pp = pp' := Dec.fin.inj (congrArg ContractAggregation.profit hb')
            exact ⟨le_of_eq h1, le_of_eq h2⟩
      · have hz : (parse_decimal r.pnl).eqZero = some false := by
          rw [hp]; simp [Dec.eqZero, hp0]
        have hs : step totals r
            = ((lookupCA totals (getContract r)).profit.add (parse_decimal r.pnl)).map
                (fun np => setAgg totals (getContract r)
                  ⟨(lookupCA totals (getContract r)).cost, np⟩) := by
          simp [step, hr, hz]
        rw [hs] at hstep
        by_cases hc : c = getContract r
        · subst hc
          rw [hb, hp] at hstep
          simp only [Dec.add, Option.map_some'] at hstep
          have htot : totals' = setAgg totals (getContract r) ⟨Dec.fin cc, Dec.fin (pp + p)⟩ :=
            (Option.some.inj hstep).symm
          subst htot
          rw [lookupCA, lookup_setAgg_self] at hb'
          simp only [Option.getD_some] at hb'
          have h1 : cc = cc' := Dec.fin.inj (congrArg ContractAggregation.cost hb')
          have h2 : pp + p = pp' := Dec.fin.inj (congrArg ContractAggregation.profit hb')
          exact ⟨le_of_eq h1, h2 ▸ le_add_of_nonneg_right hpn⟩
        · cases hadd : (lookupCA totals (getContract r)).profit.add (parse_decimal r.pnl) with
          | none => rw [hadd] at hstep; cases hstep
          | some np =>
            rw [hadd] at hstep
            simp only [Option.map_some'] at hstep
            have htot : totals' = setAgg totals (getContract r)
                ⟨(lookupCA totals (getContract r)).cost, np⟩ := (Option.some.inj hstep).symm
            subst htot
            rw [lookupCA, lookup_setAgg_ne _ _ _ _ hc] at hb'
            rw [lookupCA] at hb
            rw [hb] at hb'
            have h1 : cc = cc' := Dec.fin.inj (congrArg ContractAggregation.cost hb')
            have h2 : pp = pp' := Dec.fin.inj (congrArg ContractAggregation.profit hb')
            exact ⟨le_of_eq h1, le_of_eq h2⟩

/-- Witness for C9 at a concrete step: contract `A`, realized P&L `1`,
no notional — profit moves from `0` up to `1`, cost stays `0`. -/
theorem c9_witness :
    step ([]) (⟨some ("A"), some ("1"), none⟩ : NRow)
      = some [(("A"), ⟨Dec.fin 0, Dec.fin 1⟩)] ∧
    ((0 : ℚ) ≤ 0 ∧ (0 : ℚ) ≤ 1) :=
  ⟨by decide,
   c9_amended.2 ([]) (⟨some ("A"), some ("1"), none⟩ : NRow) ("A") 1 0 0 0 0 1
     [(("A"), ⟨Dec.fin 0, Dec.fin 1⟩)]
     (by decide) (by decide) (by decide) (by decide) (by decide) (by decide) (by decide)⟩

/-! ## The finite image of a successful run -/

theorem lookup_toCA (t : List (String × FinAgg)) (c : String) :
    (toCA t).lookup c
      = (t.lookup c).map
          (fun b => (⟨Dec.fin b.cost, Dec.fin b.profit⟩ : ContractAggregation)) := by
  induction t with
  | nil => rfl
  | cons kv rest ih =>
    obtain ⟨k, w⟩ := kv
    by_cases h : c = k
    · subst h; simp [toCA, List.lookup]
    · simpa [toCA, List.lookup, beq_eq_false_iff_ne.mpr h] using ih

theorem setAgg_toCA (t : List (String × FinAgg)) (c : String) (x y : ℚ) :
    setAgg (toCA t) c ⟨Dec.fin x, Dec.fin y⟩ = toCA (setAgg t c ⟨x, y⟩) := by
  induction t with
  | nil => rfl
  | cons kv rest ih =>
    obtain ⟨k, w⟩ := kv
    by_cases h : k = c
    · subst h; simp [toCA, setAgg]
    · simpa [toCA, setAgg, h] using ih

theorem step_toCA (t : List (String × FinAgg)) (r : NRow)
    (h1 : (parse_decimal r.pnl).isFin = true) (h2 : (parse_decimal r.amount).isFin = true) :
    step (toCA t) r = some (toCA (stepP t r)) := by
  by_cases hr : getContract r = ("")
  · simp [step, stepP, hr]
  · obtain ⟨p, hp⟩ : ∃ p, parse_decimal r.pnl = Dec.fin p := by
      cases hq : parse_decimal r.pnl with
      | fin q => exact ⟨q, rfl⟩
      | inf b => rw [hq] at h1; cases h1
      | qnan => rw [hq] at h1; cases h1
      | snan => rw [hq] at h1; cases h1
    obtain ⟨a, ha⟩ : ∃ a, parse_decimal r.amount = Dec.fin a := by
      cases hq : parse_decimal r.amount with
      | fin q => exact ⟨q, rfl⟩
      | inf b => rw [hq] at h2; cases h2
      | qnan => rw [hq] at h2; cases h2
      | snan => rw [hq] at h2; cases h2
    have hfv : (parse_decimal r.pnl).finVal = p := by rw [hp]; rfl
    have hfa : (parse_decimal r.amount).finVal = a := by rw [ha]; rfl
    have hlc : lookupCA (toCA t) (getContract r)
        = ⟨Dec.fin ((t.lookup (getContract r)).getD ⟨0, 0⟩).cost,
           Dec.fin ((t.lookup (getContract r)).getD ⟨0, 0⟩).profit⟩ := by
      rw [lookupCA, lookup_toCA]
      cases t.lookup (getContract r) <;> rfl
    by_cases hp0 : p = 0
    · have hz : (parse_decimal r.pnl).eqZero = some true := by
        rw [hp]; simp [Dec.eqZero, hp0]
      have hs : step (toCA t) r
          = ((lookupCA (toCA t) (getContract r)).cost.add (parse_decimal r.amount)).map
              (fun nc => setAgg (toCA t) (getContract r)
                ⟨nc, (lookupCA (toCA t) (getContract r)).profit⟩) := by
        simp [step, hr, hz]
      have hsp : stepP t r = setAgg t (getContract r)
          ⟨((t.lookup (getContract r)).getD ⟨0, 0⟩).cost + a,
            ((t.lookup (getContract r)).getD ⟨0, 0⟩).profit⟩ := by
        rw [stepP, if_neg hr, hfv, hfa, if_pos hp0]
      rw [hs, hlc, ha, hsp]
      simp only [Dec.add, Option.map_some']
      rw [setAgg_toCA]
    · have hz : (parse_decimal r.pnl).eqZero = some false := by
        rw [hp]; simp [Dec.eqZero, hp0]
      have hs : step (toCA t) r
          = ((lookupCA (toCA t) (getContract r)).profit.add (parse_decimal r.pnl)).map
              (fun np => setAgg (toCA t) (getContract r)
                ⟨(lookupCA (toCA t) (getContract r)).cost, np⟩) := by
        simp [step, hr, hz]
      have hsp : stepP t r = setAgg t (getContract r)
          ⟨((t.lookup (getContract r)).getD ⟨0, 0⟩).cost,
            ((t.lookup (getContract r)).getD ⟨0, 0⟩).profit + p⟩ := by
        rw [stepP, if_neg hr, hfv, hfa, if_neg hp0]
      rw [hs, hlc, hp, hsp]
      simp only [Dec.add, Option.map_some']
      rw [setAgg_toCA]

theorem foldlM_step_toCA (rows : List NRow) (t : List (String × FinAgg))
    (hf : ∀ r ∈ rows, FinRow r) :
    List.foldlM step (toCA t) rows = some (toCA (List.foldl stepP t rows)) := by
  induction rows generalizing t with
  | nil => rfl
  | cons r rest ih =>
    have hr := hf r (List.mem_cons_self r rest)
    rw [List.foldlM_cons, step_toCA t r hr.1 hr.2]
    simp only [Option.bind_eq_bind, Option.some_bind, List.foldl_cons]
    exact ih (stepP t r) (fun x hx => hf x (List.mem_cons_of_mem r hx))

/-- A run over rows whose numeric fields all parse to finite decimals
never signals, and computes the finite image `aggP`. -/
theorem agg_ok_of_fin (rows : List NRow) (hf : ∀ r ∈ rows, FinRow r) :
    aggregate_contracts rows = some (toCA (aggP rows)) := by
  have h := foldlM_step_toCA rows [] hf
  exact h

/-! ## Claim C10 -/

/-- Claim C10 (counterexample): both rows lack the realized-P&L key (so
their P&L defaults to zero and their notionals feed `cost`), yet the
function raises `decimal.InvalidOperation` — adding the second row's
parsed `-Infinity` notional to the `+Infinity` cost signals under the
default context — refuting "never raises for any such input". -/
theorem c10_counterexample :
    c10rowInf.pnl = none ∧ c10rowNegInf.pnl = none ∧
    aggregate_contracts [c10rowInf, c10rowNegInf] = none := by
  decide

/-- Claim C10 (amended): the aggregation's missing-key behaviour is as
claimed — a row whose contract is absent or blank after trimming is
skipped outright, and a missing notional or realized-P&L key behaves
exactly like the literal string `"0"` — and the function never raises
provided every row's numeric fields parse to finite decimals; but a row
whose field parses to an infinity or signaling NaN can abort the whole
batch with `decimal.InvalidOperation` (see the counterexample), so
unconditional totality fails. -/
theorem c10_amended :
    (∀ (totals : List (String × ContractAggregation)) (r : NRow),
      getContract r = ("") → step totals r = some totals) ∧
    (∀ (totals : List (String × ContractAggregation)) (r : NRow),
      step totals { r with pnl := none } = step totals { r with pnl := some ("0") }) ∧
    (∀ (totals : List (String × ContractAggregation)) (r : NRow),
      step totals { r with amount := none } = step totals { r with amount := some ("0") }) ∧
    (∀ rows : List NRow, (∀ r ∈ rows, FinRow r) →
      ∃ out, aggregate_contracts rows = some out) := by
  refine ⟨?_, ?_, ?_, ?_⟩
  · intro totals r h
    simp [step, h]
  · intro totals r
    have h0 : parse_decimal (some ("0")) = Dec.fin 0 := by decide
    have hn : parse_decimal none = Dec.fin 0 := rfl
    have hgc : ∀ x, getContract { r with pnl := x } = getContract r := fun _ => rfl
    have hpn : ({ r with pnl := none } : NRow).pnl = none := rfl
    have hps : ({ r with pnl := some ("0") } : NRow).pnl = some ("0") := rfl
    have ham : ∀ x, ({ r with pnl := x } : NRow).amount = r.amount := fun _ => rfl
    simp only [step, hgc, hpn, hps, ham, h0, hn]
  · intro totals r
    have h0 : parse_decimal (some ("0")) = Dec.fin 0 := by decide
    have hn : parse_decimal none = Dec.fin 0 := rfl
    have hgc : ∀ x, getContract { r with amount := x } = getContract r := fun _ => rfl
    have han : ({ r with amount := none } : NRow).amount = none := rfl
    have has : ({ r with amount := some ("0") } : NRow).amount = some ("0") := rfl
    have hpl : ∀ x, ({ r with amount := x } : NRow).pnl = r.pnl := fun _ => rfl
    simp only [step, hgc, han, has, hpl, h0, hn]
  · intro rows hf
    exact ⟨toCA (aggP rows), agg_ok_of_fin rows hf⟩

/-- Witness for C10: a row with no contract key is skipped; a batch of
finite rows completes without raising. -/
theorem c10_witness :
    step ([]) (⟨none, some ("1"), some ("2")⟩ : NRow) = some ([]) ∧
    (∃ out, aggregate_contracts [(⟨some ("C"), some ("1"), some ("2")⟩ : NRow)] = some out) :=
  ⟨c10_amended.1 ([]) (⟨none, some ("1"), some ("2")⟩ : NRow) (by decide),
   c10_amended.2.2.2 [(⟨some ("C"), some ("1"), some ("2")⟩ : NRow)] (by decide)⟩

/-! ## Characterising the fold by per-contract sums -/

theorem foldl_stepP_lookup (rows : List NRow) (init : List (String × FinAgg)) (c : String)
    (hc : ¬ c = ("")) :
    (List.foldl stepP init rows).lookup c =
      match init.lookup c with
      | some b => some ⟨b.cost + csum rows c, b.profit + psum rows c⟩
      | none => if rowsFor rows c = [] then none else some ⟨csum rows c, psum rows c⟩ := by
  induction rows generalizing init with
  | nil =>
    cases hinit : init.lookup c <;> simp [hinit, csum, psum, rowsFor]
  | cons r rest ih =>
    rw [List.foldl_cons, ih (stepP init r)]
    by_cases hr : getContract r = ("")
    · have hs : stepP init r = init := by simp [stepP, hr]
      have hbc : (getContract r == c) = false := by
        rw [hr]; exact beq_eq_false_iff_ne.mpr (fun hh => hc hh.symm)
      have hrow : rowsFor (r :: rest) c = rowsFor rest c := by
        simp [rowsFor, List.filter_cons, hbc]
      have hcs : csum (r :: rest) c = csum rest c := by
        unfold csum; rw [hrow]
      have hps2 : psum (r :: rest) c = psum rest c := by
        unfold psum; rw [hrow]
      rw [hs, hcs, hps2, hrow]
    · by_cases hrc : getContract r = c
      · have hbc : (getContract r == c) = true := beq_iff_eq.mpr hrc
        have hrow : rowsFor (r :: rest) c = r :: rowsFor rest c := by
          simp [rowsFor, List.filter_cons, hbc]
        have hcs : csum (r :: rest) c = costContrib r + csum rest c := by
          unfold csum; rw [hrow]; simp
        have hps2 : psum (r :: rest) c = profitContrib r + psum rest c := by
          unfold psum; rw [hrow]; simp
        by_cases hp0 : (parse_decimal r.pnl).finVal = 0
        · have hs : stepP init r = setAgg init c
              ⟨((init.lookup c).getD ⟨0, 0⟩).cost + (parse_decimal r.amount).finVal,
                ((init.lookup c).getD ⟨0, 0⟩).profit⟩ := by
            rw [stepP, if_neg hr, hrc, if_pos hp0]
          have hcc : costContrib r = (parse_decimal r.amount).finVal := by
            rw [costContrib, if_pos hp0]
          have hpc : profitContrib r = 0 := by
            rw [profitContrib, if_pos hp0]
          rw [hs, lookup_setAgg_self, hcs, hps2, hcc, hpc, hrow]
          cases hinit : init.lookup c <;>
            simp [hinit, add_assoc]
        · have hs : stepP init r = setAgg init c
              ⟨((init.lookup c).getD ⟨0, 0⟩).cost,
                ((init.lookup c).getD ⟨0, 0⟩).profit + (parse_decimal r.pnl).finVal⟩ := by
            rw [stepP, if_neg hr, hrc, if_neg hp0]
          have hcc : costContrib r = 0 := by
            rw [costContrib, if_neg hp0]
          have hpc : profitContrib r = (parse_decimal r.pnl).finVal := by
            rw [profitContrib, if_neg hp0]
          rw [hs, lookup_setAgg_self, hcs, hps2, hcc, hpc, hrow]
          cases hinit : init.lookup c <;>
            simp [hinit, add_assoc]
      · have hbc : (getContract r == c) = false := beq_eq_false_iff_ne.mpr hrc
        have hrow : rowsFor (r :: rest) c = rowsFor rest c := by
          simp [rowsFor, List.filter_cons, hbc]
        have hcs : csum (r :: rest) c = csum rest c := by
          unfold csum; rw [hrow]
        have hps2 : psum (r :: rest) c = psum rest c := by
          unfold psum; rw [hrow]
        have hl : (stepP init r).lookup c = init.lookup c := by
          rw [stepP, if_neg hr]
          by_cases hp0 : (parse_decimal r.pnl).finVal = 0
          · rw [if_pos hp0, lookup_setAgg_ne _ _ _ _ (fun hh => hrc hh.symm)]
          · rw [if_neg hp0, lookup_setAgg_ne _ _ _ _ (fun hh => hrc hh.symm)]
        rw [hl, hcs, hps2, hrow]

theorem aggP_lookup (rows : List NRow) (c : String) (hc : ¬ c = ("")) :
    (aggP rows).lookup c =
      if rowsFor rows c = [] then none else some ⟨csum rows c, psum rows c⟩ :=
  foldl_stepP_lookup rows [] c hc

theorem lookup_empty_key (rows : List NRow) (init : List (String × FinAgg))
    (h : init.lookup ("") = none) :
    (List.foldl stepP init rows).lookup ("") = none := by
  induction rows generalizing init with
  | nil => exact h
  | cons r rest ih =>
    rw [List.foldl_cons]
    apply ih
    by_cases hr : getContract r = ("")
    · simp [stepP, hr, h]
    · rw [stepP, if_neg hr]
      by_cases hp0 : (parse_decimal r.pnl).finVal = 0
      · rw [if_pos hp0, lookup_setAgg_ne _ _ _ _ (fun hh => hr hh.symm)]; exact h
      · rw [if_neg hp0, lookup_setAgg_ne _ _ _ _ (fun hh => hr hh.symm)]; exact h

/-! ## Claim C5 -/

/-- Claim C5 (counterexample): the two batches are permutations of each
other, yet one completes (the quiet NaN parsed from the first row absorbs
the infinities silently) while the other raises `decimal.InvalidOperation`
(adding `-Infinity` to a `+Infinity` accumulator) — so permuting the rows
does not always yield the same final cost and profit. -/
theorem c5_counterexample :
    List.Perm [c5rowN, c5rowI, c5rowJ] [c5rowI, c5rowJ, c5rowN] ∧
    aggregate_contracts [c5rowN, c5rowI, c5rowJ]
      = some [(("A"), ⟨Dec.fin 0, Dec.qnan⟩)] ∧
    aggregate_contracts [c5rowI, c5rowJ, c5rowN] = none := by
  decide

/-- Claim C5 (amended): restricted to batches in which every row's
realized P&L and notional parse to finite decimals, the netting
aggregation is order-independent — both runs succeed and, for every
contract, permuting the rows leaves the final cost and profit unchanged
(only the first-seen emission order of contracts may differ).  Without the
finiteness proviso a permutation can change the outcome (see the
counterexample). -/
theorem c5_amended (rows₁ rows₂ : List NRow) (hperm : rows₁.Perm rows₂)
    (hfin : ∀ r ∈ rows₁, FinRow r) (c : String) :
    (aggregate_contracts rows₁).map (fun t => t.lookup c)
      = (aggregate_contracts rows₂).map (fun t => t.lookup c) := by
  have hfin₂ : ∀ r ∈ rows₂, FinRow r := fun r h => hfin r (hperm.mem_iff.mpr h)
  rw [agg_ok_of_fin rows₁ hfin, agg_ok_of_fin rows₂ hfin₂]
  simp only [Option.map_some']
  rw [lookup_toCA, lookup_toCA]
  suffices h : (aggP rows₁).lookup c = (aggP rows₂).lookup c by rw [h]
  by_cases hc : c = ("")
  · subst hc
    show (List.foldl stepP [] rows₁).lookup ("") = (List.foldl stepP [] rows₂).lookup ("")
    rw [lookup_empty_key rows₁ [] rfl, lookup_empty_key rows₂ [] rfl]
  · rw [aggP_lookup rows₁ c hc, aggP_lookup rows₂ c hc]
    have hpf : (rowsFor rows₁ c).Perm (rowsFor rows₂ c) := hperm.filter _
    have hcs : csum rows₁ c = csum rows₂ c := (hpf.map costContrib).sum_eq
    have hps : psum rows₁ c = psum rows₂ c := (hpf.map profitContrib).sum_eq
    by_cases h1 : rowsFor rows₁ c = []
    · have h2 : rowsFor rows₂ c = [] := by
        rw [h1] at hpf; exact hpf.symm.eq_nil
      rw [if_pos h1, if_pos h2]
    · have h2 : ¬ rowsFor rows₂ c = [] := fun hh => by
        rw [hh] at hpf; exact h1 hpf.eq_nil
      rw [if_neg h1, if_neg h2, hcs, hps]

/-- Witness for C5: swapping two finite rows of contract `A` leaves its
looked-up aggregate unchanged. -/
theorem c5_witness :
    (aggregate_contracts
        [⟨some ("A"), some ("0"), some ("3")⟩, ⟨some ("A"), some ("4"), none⟩]).map
        (fun t => t.lookup ("A"))
      = (aggregate_contracts
          [⟨some ("A"), some ("4"), none⟩, ⟨some ("A"), some ("0"), some ("3")⟩]).map
          (fun t => t.lookup ("A")) :=
  c5_amended
    [⟨some ("A"), some ("0"), some ("3")⟩, ⟨some ("A"), some ("4"), none⟩]
    [⟨some ("A"), some ("4"), none⟩, ⟨some ("A"), some ("0"), some ("3")⟩]
    (by decide) (by decide) ("A")

/-! ## Reconstruction helper lemmas -/

theorem mkSummary_direction (b : Bool) (sdf : List XRow) :
    (mkSummary b sdf).direction = if b then ("多") else ("空") := rfl

theorem mkSummary_openTotal (b : Bool) (sdf : List XRow) :
    (mkSummary b sdf).openTotal = legTotalAmount (openLeg b sdf) := rfl

theorem mkSummary_closeTotal (b : Bool) (sdf : List XRow) :
    (mkSummary b sdf).closeTotal = legTotalAmount (closeLeg b sdf) := rfl

theorem mkSummary_openAvg (b : Bool) (sdf : List XRow) :
    (mkSummary b sdf).openAvgPrice = legAvgPrice (openLeg b sdf) := rfl

theorem mkSummary_closeAvg (b : Bool) (sdf : List XRow) :
    (mkSummary b sdf).closeAvgPrice = legAvgPrice (closeLeg b sdf) := rfl

theorem mkSummary_profitAmount (b : Bool) (sdf : List XRow) :
    (mkSummary b sdf).profitAmount =
      if b then legTotalAmount (closeLeg b sdf) - legTotalAmount (openLeg b sdf)
      else legTotalAmount (openLeg b sdf) - legTotalAmount (closeLeg b sdf) := rfl

theorem mkSummary_rateStr (b : Bool) (sdf : List XRow) :
    (mkSummary b sdf).rateStr =
      formatPct (if legTotalAmount (openLeg b sdf) > 0 then
        (mkSummary b sdf).profitAmount / legTotalAmount (openLeg b sdf) * 100 else 0) := rfl

theorem posFilter_amount_pos (rows : List XRow) (r : XRow) (h : r ∈ posFilter rows) :
    0 < r.amount.toNum.getD 0 := by
  have hp : posCond r = true := List.of_mem_filter h
  rw [posCond] at hp
  cases hm : r.amount.toNum with
  | none => rw [hm] at hp; exact Bool.noConfusion hp
  | some q => rw [hm] at hp; exact of_decide_eq_true hp

theorem legTotal_nonneg (leg : List XRow)
    (h : ∀ r ∈ leg, 0 < r.amount.toNum.getD 0) :
    0 ≤ legTotalAmount leg := by
  rw [legTotalAmount]
  split
  · apply List.sum_nonneg
    intro x hx
    obtain ⟨r, hr, rfl⟩ := List.mem_map.mp hx
    have hr' : r ∈ leg := List.mem_of_mem_filter hr
    exact le_of_lt (h r hr')
  · exact le_refl 0

/-- If a contract's run succeeds with a summary, the summary is
`mkSummary` of the direction bit of the first survivor's side text. -/
theorem processContract_eq (rows : List XRow) (s : TradeSummary)
    (h : processContract rows = Except.ok (some s)) :
    ∃ first rest s0, posFilter rows = first :: rest ∧ first.side = some s0 ∧
      s = mkSummary (buyMarker s0) (first :: rest) := by
  rw [processContract] at h
  cases hsdf : posFilter rows with
  | nil => rw [hsdf] at h; simp [processSorted] at h
  | cons first rest =>
    rw [hsdf] at h
    cases hside : first.side with
    | none => rw [processSorted, hside] at h; simp at h
    | some s0 =>
      rw [processSorted, hside] at h
      exact ⟨first, rest, s0, rfl, hside,
        (Option.some.inj (Except.ok.inj h)).symm⟩

/-! ## Claim C3 -/

/-- Claim C3 (confirmed): for every contract that yields a summary, the
profit amount is `close_total − open_total` for a long direction and
`open_total − close_total` for a short one, and the rendered profit rate
is `profit_amount / open_total × 100` (two fractional digits, percent)
when `open_total` is non-zero and `0.00%` (the rendering of rate zero)
when it is zero.  The source tests `open_total_amount > 0`, but this
agrees with "non-zero" because every surviving row has a strictly
positive notional, so `open_total` is a sum of positive terms or zero. -/
theorem c3_profit (rows : List XRow) (s : TradeSummary)
    (h : processContract rows = Except.ok (some s)) :
    (s.direction = ("多") → s.profitAmount = s.closeTotal - s.openTotal) ∧
    (s.direction = ("空") → s.profitAmount = s.openTotal - s.closeTotal) ∧
    (¬ s.openTotal = 0 → s.rateStr = formatPct (s.profitAmount / s.openTotal * 100)) ∧
    (s.openTotal = 0 → s.rateStr = formatPct 0) := by
  obtain ⟨first, rest, s0, hsdf, hside, hs⟩ := processContract_eq rows s h
  subst hs
  have hpos : ∀ r ∈ openLeg (buyMarker s0) (first :: rest), 0 < r.amount.toNum.getD 0 := by
    intro r hr
    have hr' : r ∈ posFilter rows := by
      rw [hsdf]
      exact List.mem_of_mem_filter hr
    exact posFilter_amount_pos rows r hr'
  have hnn : 0 ≤ legTotalAmount (openLeg (buyMarker s0) (first :: rest)) :=
    legTotal_nonneg _ hpos
  refine ⟨?_, ?_, ?_, ?_⟩
  · intro hd
    cases hb : buyMarker s0 with
    | true =>
      rw [mkSummary_profitAmount, mkSummary_closeTotal, mkSummary_openTotal]
      simp
    | false =>
      rw [mkSummary_direction, hb] at hd
      exact absurd hd (by decide)
  · intro hd
    cases hb : buyMarker s0 with
    | true =>
      rw [mkSummary_direction, hb] at hd
      exact absurd hd (by decide)
    | false =>
      rw [mkSummary_profitAmount, mkSummary_closeTotal, mkSummary_openTotal]
      simp
  · intro hne
    rw [mkSummary_openTotal] at hne
    have hgt : legTotalAmount (openLeg (buyMarker s0) (first :: rest)) > 0 :=
      lt_of_le_of_ne hnn (fun hh => hne hh.symm)
    rw [mkSummary_rateStr, if_pos hgt, mkSummary_openTotal]
  · intro h0
    rw [mkSummary_openTotal] at h0
    rw [mkSummary_rateStr, h0]
    simp

/-- Witness for C3 on the spec's end-to-end example (buy 1 @ 100, sell 1 @
110): direction long, profit `10`, rate rendered `10.00%`. -/
theorem c3_witness :
    processContract ethRows = Except.ok (some ethSummary) ∧
    ethSummary.profitAmount = ethSummary.closeTotal - ethSummary.openTotal ∧
    ethSummary.rateStr = formatPct (ethSummary.profitAmount / ethSummary.openTotal * 100) := by
  refine ⟨by decide, ?_, ?_⟩
  · exact (c3_profit ethRows ethSummary (by decide)).1 (by decide)
  · exact (c3_profit ethRows ethSummary (by decide)).2.2.1 (by decide)

/-! ## Claim C2 -/

theorem sum_prodPQ_eq (l : List XRow) :
    (l.map prodPQ).sum
      = ((l.filter (fun r => r.price.toNum.isSome && r.qty.toNum.isSome)).map
          (fun r => (r.price.toNum.getD 0) * (r.qty.toNum.getD 0))).sum := by
  induction l with
  | nil => rfl
  | cons r t ih =>
    by_cases hb : (r.price.toNum.isSome && r.qty.toNum.isSome) = true
    · rw [Bool.and_eq_true] at hb
      obtain ⟨h1, h2⟩ := hb
      obtain ⟨p, hp⟩ := Option.isSome_iff_exists.mp h1
      obtain ⟨q, hq⟩ := Option.isSome_iff_exists.mp h2
      have hprod : prodPQ r = p * q := by
        rw [prodPQ, hp, hq]
      simp [List.filter_cons, h1, h2, hp, hq, hprod, ih]
    · have hz : prodPQ r = 0 := by
        rw [prodPQ]
        cases hp : r.price.toNum <;> cases hq : r.qty.toNum <;>
          simp_all
      simp [List.filter_cons, hb, hz, ih]

/-- Claim C2 (amended): for every leg, the computed volume-weighted average
price equals `Σ(price·quantity)` over the rows with both fields parseable,
divided by the sum of the parseable quantities of *all* rows whose price
and quantity cells are non-null — a row with an unparseable non-null price
is excluded from the numerator but its quantity still counts in the
denominator — and is zero whenever that denominator is not positive; the
computation is total (never raises).  This applies to both legs of every
contract, whose summary fields are `legAvgPrice` of the respective legs. -/
theorem c2_amended (leg : List XRow) : legAvgPrice leg = amendedWavg leg := by
  rw [legAvgPrice, amendedWavg]
  by_cases hlen : (legValid leg).length > 0
  · rw [if_pos hlen]
    have hnum := sum_prodPQ_eq (legValid leg)
    rw [legTotQty] at *
    rw [hnum]
    rfl
  · rw [if_neg hlen]
    have hnil : legValid leg = [] := by
      cases hf : legValid leg with
      | nil => rfl
      | cons a b => rw [hf] at hlen; simp at hlen
    rw [legValid] at hnil
    rw [hnil]
    simp

/-- Claim C2 (counterexample): a long contract whose opening leg holds a
row with an unparseable (non-null) price and quantity 2 plus a row with
price 10 and quantity 1.  The claim's formula — restricted to rows with
both fields parseable — gives `10/1 = 10`, but the engine computes
`10/3`: the bad-price row was dropped from the numerator yet its quantity
still inflates the denominator. -/
theorem c2_counterexample :
    (processContract c2rows).map (Option.map TradeSummary.openAvgPrice)
      = Except.ok (some (mkRat 10 3)) ∧
    claimWavg (openLeg true (posFilter c2rows)) = 10 ∧
    mkRat 10 3 < 10 := by
  decide

/-! ## Claim C4 -/

/-- Claim C4 (counterexample): in a long contract, the surviving row with
side text `买平` (quantity 1, positive notional) matches the open marker
`买` and the close marker `平` simultaneously, so it lands in *both* legs
— the claimed exactly-one partition fails. -/
theorem c4_counterexample :
    posFilter c4rows = [⟨1, some ("买"), NCell.num 1, NCell.num 10, NCell.num 10⟩, c4rowBoth] ∧
    (processContract c4rows).map (Option.map TradeSummary.direction)
      = Except.ok (some ("多")) ∧
    c4rowBoth ∈ openLeg true (posFilter c4rows) ∧
    c4rowBoth ∈ closeLeg true (posFilter c4rows) := by
  decide

/-- Claim C4 (amended): a surviving row lands in the opening leg exactly
when its side text matches one of the direction's opening markers, and in
the closing leg exactly when it matches one of the closing markers — the
two memberships are independent, so a row may land in both legs (side text
matching markers of both kinds) or in neither (side text matching no
marker); rows dropped by the positive-notional filter are in neither leg. -/
theorem c4_amended (isLong : Bool) (rows : List XRow) (r : XRow)
    (h : r ∈ posFilter rows) :
    (r ∈ openLeg isLong (posFilter rows) ↔ sideHas r.side (openPats isLong) = true) ∧
    (r ∈ closeLeg isLong (posFilter rows) ↔ sideHas r.side (closePats isLong) = true) := by
  rw [openLeg, closeLeg, List.mem_filter, List.mem_filter]
  exact ⟨⟨fun hh => hh.2, fun hh => ⟨h, hh⟩⟩, ⟨fun hh => hh.2, fun hh => ⟨h, hh⟩⟩⟩

/-- Witness for C4 at the concrete long contract: the `买平` row is in the
opening leg iff it matches an open marker and in the closing leg iff it
matches a close marker (here: both). -/
theorem c4_witness :
    (c4rowBoth ∈ openLeg true (posFilter c4rows)
      ↔ sideHas c4rowBoth.side (openPats true) = true) ∧
    (c4rowBoth ∈ closeLeg true (posFilter c4rows)
      ↔ sideHas c4rowBoth.side (closePats true) = true) :=
  c4_amended true c4rows c4rowBoth (by decide)

/-! ## Claim C8 -/

/-- Claim C8 (counterexample): a contract whose only (surviving) row has a
non-string side cell (`NaN`).  The claim requires direction = short (the
side contains no buy marker), but the engine instead raises `TypeError`
from `'买' in first_order` and produces nothing at all. -/
theorem c8_counterexample :
    posFilter [c8rowNanSide] = [c8rowNanSide] ∧
    processContract [c8rowNanSide] = Except.error PdError.typeErr := by
  decide

/-- Claim C8 (amended): provided the earliest surviving row's side cell is
a string, the contract's direction is long exactly when that string
contains a `买` (buy) or `开多` (open-long) marker and short otherwise,
and it depends only on that first row — the sides of all later rows do not
appear in the conclusion.  When the earliest surviving row's side cell is
not a string the engine raises instead of classifying (see the
counterexample). -/
theorem c8_amended (rows : List XRow) (first : XRow) (rest : List XRow) (s0 : String)
    (h : posFilter rows = first :: rest) (hs : first.side = some s0) :
    (processContract rows).map (Option.map TradeSummary.direction)
      = Except.ok (some (if buyMarker s0 then ("多") else ("空"))) := by
  rw [processContract, h, processSorted, hs]
  rw [Except.map, Option.map, mkSummary_direction]

/-- Witness for C8: a single sell-side row yields direction `空` via the
amended rule. -/
theorem c8_witness :
    (processContract [(⟨1, some ("卖"), NCell.num 1, NCell.num 2, NCell.num 3⟩ : XRow)]).map
        (Option.map TradeSummary.direction)
      = Except.ok (some (if buyMarker ("卖") then ("多") else ("空"))) :=
  c8_amended [(⟨1, some ("卖"), NCell.num 1, NCell.num 2, NCell.num 3⟩ : XRow)]
    (⟨1, some ("卖"), NCell.num 1, NCell.num 2, NCell.num 3⟩ : XRow) [] ("卖")
    (by decide) (by decide)
